import Mathlib

/-
  Verification development for the chip8 emulator core.

  Shallow embedding of src/instruction.rs, src/display.rs and src/cpu.rs.
  Machine integers are modelled as Nat with explicit reduction modulo
  2^8 / 2^16 / 2^32 where the Rust code wraps (release semantics of the
  wrapping casts and of the explicit wrapping_add / checked_add /
  checked_sub code paths).  Rust array indexing panics when the index is
  out of bounds; every such access is modelled with Option, where none
  stands for the panic.  The thread-local random generator used by the
  random instruction is modelled as an oracle stream held in the state.
  Console printing and the debug dump have no effect on machine state
  and are omitted.
-/

set_option maxRecDepth 10000

namespace Chip8

/-- Reduction modulo 2^8, the behaviour of u8 wrapping arithmetic. -/
def wrap8 (n : Nat) : Nat := n % 256

/-- Reduction modulo 2^16, the behaviour of u16 wrapping arithmetic. -/
def wrap16 (n : Nat) : Nat := n % 65536

/-- Reduction modulo 2^32, the behaviour of u32 wrapping arithmetic. -/
def wrap32 (n : Nat) : Nat := n % 4294967296

/-- Writing one cell of a Rust fixed array: panics (none) out of bounds. -/
def listSet? {α : Type} (l : List α) (i : Nat) (v : α) : Option (List α) :=
  if i < l.length then some (l.set i v) else none

/-- The instruction enum of src/instruction.rs. -/
inductive Instruction where
  | Clear
  | Return
  | ExRoutine (a : Nat)
  | Jump (a : Nat)
  | Call (a : Nat)
  | SkipIfEqual (r v : Nat)
  | SkipIfNotEqual (r v : Nat)
  | SkipIfRegEqual (r1 r2 : Nat)
  | LoadVal (r v : Nat)
  | AddVal (r v : Nat)
  | LoadReg (r1 r2 : Nat)
  | Or (r1 r2 : Nat)
  | And (r1 r2 : Nat)
  | Xor (r1 r2 : Nat)
  | AddReg (r1 r2 : Nat)
  | SubReg (r1 r2 : Nat)
  | ShiftRight (r : Nat)
  | ShiftLeft (r : Nat)
  | SetIndexRegister (a : Nat)
  | Random (r v : Nat)
  | Draw (r1 r2 v : Nat)
  | SkipIfKey (r : Nat)
  | SkipIfNotKey (r : Nat)
  | AddIndex (r : Nat)
  | LoadDigit (r : Nat)
  | LoadBCD (r : Nat)
  | StoreIndex (r : Nat)
  | ReadIndex (r : Nat)
  | InvalidOperation
  deriving DecidableEq

/-- Operand extraction, src/instruction.rs fn reg1. -/
def reg1 (val : Nat) : Nat := (val &&& 0x0F00) >>> 8

/-- Operand extraction, src/instruction.rs fn reg2. -/
def reg2 (val : Nat) : Nat := (val &&& 0x00F0) >>> 4

/-- Operand extraction, src/instruction.rs fn byte. -/
def byteOf (val : Nat) : Nat := val &&& 0x00FF

/-- Operand extraction, src/instruction.rs fn nibble. -/
def nibbleOf (val : Nat) : Nat := val &&& 0x000F

/-- Operand extraction, src/instruction.rs fn addr. -/
def addrOf (val : Nat) : Nat := val &&& 0x0FFF

/-- The decoder, src/instruction.rs Instruction::parse.  The Rust match
on the masked word is rendered as the equivalent chain of equality tests,
one test per match arm, in source order. -/
def parse (val : Nat) : Instruction :=
  if val &&& 0xF000 = 0x0000 then
    if val &&& 0x0FFF = 0x00E0 then .Clear
    else if val &&& 0x0FFF = 0x00EE then .Return
    else .ExRoutine (addrOf val)
  else if val &&& 0xF000 = 0x1000 then .Jump (addrOf val)
  else if val &&& 0xF000 = 0x2000 then .Call (addrOf val)
  else if val &&& 0xF000 = 0x3000 then .SkipIfEqual (reg1 val) (byteOf val)
  else if val &&& 0xF000 = 0x4000 then .SkipIfNotEqual (reg1 val) (byteOf val)
  else if val &&& 0xF000 = 0x5000 then .SkipIfRegEqual (reg1 val) (reg2 val)
  else if val &&& 0xF000 = 0x6000 then .LoadVal (reg1 val) (byteOf val)
  else if val &&& 0xF000 = 0x7000 then .AddVal (reg1 val) (byteOf val)
  else if val &&& 0xF000 = 0x8000 then
    if val &&& 0x000F = 0x0000 then .LoadReg (reg1 val) (reg2 val)
    else if val &&& 0x000F = 0x0001 then .Or (reg1 val) (reg2 val)
    else if val &&& 0x000F = 0x0002 then .And (reg1 val) (reg2 val)
    else if val &&& 0x000F = 0x0003 then .Xor (reg1 val) (reg2 val)
    else if val &&& 0x000F = 0x0004 then .AddReg (reg1 val) (reg2 val)
    else if val &&& 0x000F = 0x0005 then .SubReg (reg1 val) (reg2 val)
    else if val &&& 0x000F = 0x0006 then .ShiftRight (reg1 val)
    else if val &&& 0x000F = 0x000E then .ShiftLeft (reg1 val)
    else .InvalidOperation
  else if val &&& 0xF000 = 0xA000 then .SetIndexRegister (addrOf val)
  else if val &&& 0xF000 = 0xC000 then .Random (reg1 val) (byteOf val)
  else if val &&& 0xF000 = 0xD000 then .Draw (reg1 val) (reg2 val) (nibbleOf val)
  else if val &&& 0xF000 = 0xE000 then
    if val &&& 0x00FF = 0x009E then .SkipIfKey (reg1 val)
    else if val &&& 0x00FF = 0x00A1 then .SkipIfNotKey (reg1 val)
    else .InvalidOperation
  else if val &&& 0xF000 = 0xF000 then
    if val &&& 0x00FF = 0x001E then .AddIndex (reg1 val)
    else if val &&& 0x00FF = 0x0029 then .LoadDigit (reg1 val)
    else if val &&& 0x00FF = 0x0033 then .LoadBCD (reg1 val)
    else if val &&& 0x00FF = 0x0055 then .StoreIndex (reg1 val)
    else if val &&& 0x00FF = 0x0065 then .ReadIndex (reg1 val)
    else .InvalidOperation
  else .InvalidOperation

/-- src/display.rs WIDTH. -/
def WIDTH : Nat := 64

/-- src/display.rs HEIGHT. -/
def HEIGHT : Nat := 32

/-- src/display.rs SPRITES: the 80 bytes of built-in glyph data. -/
def SPRITES : List Nat :=
  [0xF0, 0x90, 0x90, 0x90, 0xF0, 0x20, 0x60, 0x20, 0x20, 0x70,
   0xF0, 0x10, 0xF0, 0x80, 0xF0, 0xF0, 0x10, 0xF0, 0x10, 0xF0,
   0x90, 0x90, 0xF0, 0x10, 0x10, 0xF0, 0x80, 0xF0, 0x10, 0xF0,
   0xF0, 0x80, 0xF0, 0x90, 0xF0, 0xF0, 0x10, 0x20, 0x40, 0x40,
   0xF0, 0x90, 0xF0, 0x90, 0xF0, 0xF0, 0x90, 0xF0, 0x10, 0xF0,
   0xF0, 0x90, 0xF0, 0x90, 0x90, 0xE0, 0x90, 0xE0, 0x90, 0xE0,
   0xF0, 0x80, 0x80, 0x80, 0xF0, 0xE0, 0x90, 0x90, 0x90, 0xE0,
   0xF0, 0x80, 0xF0, 0x80, 0xF0, 0xF0, 0x80, 0xF0, 0x80, 0x80]

/-- src/display.rs type Screen: 32 rows of 64 boolean cells. -/
abbrev Screen := List (List Bool)

/-- The all-false screen a fresh or cleared Display holds. -/
def emptyScreen : Screen := List.replicate HEIGHT (List.replicate WIDTH false)

/-- src/display.rs struct Display. -/
structure Display where
  screen : Screen
  deriving DecidableEq

/-- src/display.rs Display::coords_out_of_bounds. -/
def coords_out_of_bounds (x y : Nat) : Bool :=
  decide (HEIGHT ≤ y) || decide (WIDTH ≤ x)

/-- Reading screen cell (row y, column x); only reached behind the bounds
check, where it coincides with the Rust double indexing. -/
def screenGet (scr : Screen) (y x : Nat) : Bool := (scr.getD y []).getD x false

/-- Writing screen cell (row y, column x); only reached behind the bounds
check, where it coincides with the Rust double indexing. -/
def screenSet (scr : Screen) (y x : Nat) (v : Bool) : Screen :=
  scr.set y ((scr.getD y []).set x v)

/-- The body of the inner loop of Display::draw_sprite for sprite row
number i with byte value row, at bit position j: the state is the screen
paired with the cumulative flipped flag. -/
def drawPixel (x y row i j : Nat) (st : Screen × Bool) : Screen × Bool :=
  let pixel_val := (row >>> j) &&& 1
  let y_pixel := y + i
  let x_pixel := x + (7 - j)
  if coords_out_of_bounds x_pixel y_pixel then st
  else
    let current_val := screenGet st.1 y_pixel x_pixel
    let new_val : Bool := pixel_val != 0
    (screenSet st.1 y_pixel x_pixel new_val,
     st.2 || (current_val && !new_val))

/-- src/display.rs Display::draw_sprite.  Note: the source assigns the
sprite bit to the cell (an overwrite) and reports flipped when a set cell
receives a clear bit; it does not XOR the bit into the cell. -/
def Display.draw_sprite (d : Display) (sprite : List Nat) (x y : Nat) :
    Display × Bool :=
  let res := sprite.enum.foldl
    (fun st p => (List.range 8).foldl (fun st2 j => drawPixel x y p.2 p.1 j st2) st)
    (d.screen, false)
  (⟨res.1⟩, res.2)

/-- src/display.rs Display::clear. -/
def Display.clearScreen (_ : Display) : Display := ⟨emptyScreen⟩

/-- src/cpu.rs INSTRUCTION_SIZE. -/
def INSTRUCTION_SIZE : Nat := 2

/-- src/cpu.rs struct Cpu.  The rng field is the oracle stream standing
for the thread-local random generator; rngCount is how many random bytes
have been drawn so far.  The debug_mode flag only gates console output
in the source and has no semantic effect here. -/
structure Cpu where
  memory : List Nat
  registers : List Nat
  index : Nat
  pc : Nat
  stack : List Nat
  sp : Nat
  del_timer : Nat
  sound_timer : Nat
  tick : Nat
  timer_tick : Nat
  keys : List Bool
  debug_mode : Bool
  display : Display
  draw_flag : Bool
  faulted : Bool
  rng : Nat → Nat
  rngCount : Nat

/-- The pc advance shared by every non-jump instruction:
self.pc += INSTRUCTION_SIZE (u16 arithmetic). -/
def advance (s : Cpu) : Cpu := {s with pc := wrap16 (s.pc + INSTRUCTION_SIZE)}

/-- src/cpu.rs Cpu::read_register: self.registers[register as usize]. -/
def read_register (s : Cpu) (r : Nat) : Option Nat := s.registers[r]?

/-- src/cpu.rs Cpu::set_register: self.registers[register as usize] = value. -/
def set_register (s : Cpu) (r v : Nat) : Option Cpu :=
  if r < s.registers.length then some {s with registers := s.registers.set r v}
  else none

/-- src/cpu.rs Cpu::set_program_counter. -/
def set_program_counter (s : Cpu) (a : Nat) : Cpu := {s with pc := a}

/-- src/cpu.rs Cpu::push_stack: self.sp += 1; self.stack[self.sp] = value.
The increment happens first, then the write, which panics (none) when the
incremented pointer is outside the 16-element array. -/
def push_stack (s : Cpu) (v : Nat) : Option Cpu :=
  let sp2 := wrap16 (s.sp + 1)
  if sp2 < s.stack.length then
    some {s with sp := sp2, stack := s.stack.set sp2 v}
  else none

/-- src/cpu.rs Cpu::pop_stack: read stack[sp] (panic out of bounds), then
self.sp -= 1 with u16 wraparound. -/
def pop_stack (s : Cpu) : Option (Nat × Cpu) := do
  let v ← s.stack[s.sp]?
  some (v, {s with sp := wrap16 (s.sp + 65535)})

/-- src/cpu.rs Cpu::noop. -/
def noop (s : Cpu) : Cpu := advance s

/-- src/cpu.rs Cpu::load_val. -/
def load_val (s : Cpu) (r v : Nat) : Option Cpu := do
  let s1 ← set_register s r v
  some (advance s1)

/-- src/cpu.rs Cpu::add_val: current_value.wrapping_add(value). -/
def add_val (s : Cpu) (r v : Nat) : Option Cpu := do
  let cur ← read_register s r
  let s1 ← set_register s r (wrap8 (cur + v))
  some (advance s1)

/-- src/cpu.rs Cpu::add_reg: checked_add succeeds exactly when the true
sum fits in a u8; on overflow the source keeps the low 8 bits of the u16
sum, which is the sum modulo 256. -/
def add_reg (s : Cpu) (r1 r2 : Nat) : Option Cpu := do
  let a ← read_register s r1
  let b ← read_register s r2
  let new_val := if a + b ≤ 255 then a + b else wrap8 (a + b)
  let carry_val := if a + b ≤ 255 then 0 else 1
  let s1 ← set_register s r1 new_val
  let s2 ← set_register s1 0xF carry_val
  some (advance s2)

/-- src/cpu.rs Cpu::sub_reg: checked_sub succeeds exactly when no borrow
occurs; on borrow the source computes (a as i8 - b as i8) as u8, whose
two complement wrapping value for a, b < 256 is (a + 256 - b) mod 256. -/
def sub_reg (s : Cpu) (r1 r2 : Nat) : Option Cpu := do
  let a ← read_register s r1
  let b ← read_register s r2
  let new_val := if b ≤ a then a - b else wrap8 (a + 256 - b)
  let borrow_val := if b ≤ a then 1 else 0
  let s1 ← set_register s r1 new_val
  let s2 ← set_register s1 0xF borrow_val
  some (advance s2)

/-- src/cpu.rs Cpu::shift_right. -/
def shift_right (s : Cpu) (r : Nat) : Option Cpu := do
  let a ← read_register s r
  let s1 ← set_register s 0xF (a &&& 1)
  let s2 ← set_register s1 r (a >>> 1)
  some (advance s2)

/-- src/cpu.rs Cpu::shift_left: the flag receives the masked top bit
(0x80 or 0), unshifted, and the register the u8-wrapped left shift. -/
def shift_left (s : Cpu) (r : Nat) : Option Cpu := do
  let a ← read_register s r
  let s1 ← set_register s 0xF (a &&& 0x80)
  let s2 ← set_register s1 r (wrap8 (a <<< 1))
  some (advance s2)

/-- src/cpu.rs Cpu::set_index. -/
def set_index (s : Cpu) (a : Nat) : Cpu := advance {s with index := a}

/-- src/cpu.rs Cpu::jump. -/
def jump (s : Cpu) (a : Nat) : Cpu := set_program_counter s a

/-- src/cpu.rs Cpu::call. -/
def call (s : Cpu) (a : Nat) : Option Cpu := do
  let s1 ← push_stack s s.pc
  some (set_program_counter s1 a)

/-- src/cpu.rs Cpu::ret. -/
def ret (s : Cpu) : Option Cpu := do
  let pv ← pop_stack s
  some (set_program_counter pv.2 pv.1)

/-- src/cpu.rs Cpu::skip_equal. -/
def skip_equal (s : Cpu) (r v : Nat) : Option Cpu := do
  let a ← read_register s r
  let pc_skip := if a = v then INSTRUCTION_SIZE * 2 else INSTRUCTION_SIZE
  some {s with pc := wrap16 (s.pc + pc_skip)}

/-- src/cpu.rs Cpu::skip_not_equal. -/
def skip_not_equal (s : Cpu) (r v : Nat) : Option Cpu := do
  let a ← read_register s r
  let pc_skip := if a ≠ v then INSTRUCTION_SIZE * 2 else INSTRUCTION_SIZE
  some {s with pc := wrap16 (s.pc + pc_skip)}

/-- src/cpu.rs Cpu::skip_reg_equal. -/
def skip_reg_equal (s : Cpu) (r1 r2 : Nat) : Option Cpu := do
  let a ← read_register s r1
  let b ← read_register s r2
  let pc_skip := if a = b then INSTRUCTION_SIZE * 2 else INSTRUCTION_SIZE
  some {s with pc := wrap16 (s.pc + pc_skip)}

/-- src/cpu.rs Cpu::load_reg. -/
def load_reg (s : Cpu) (r1 r2 : Nat) : Option Cpu := do
  let b ← read_register s r2
  let s1 ← set_register s r1 b
  some (advance s1)

/-- src/cpu.rs Cpu::or. -/
def orReg (s : Cpu) (r1 r2 : Nat) : Option Cpu := do
  let a ← read_register s r1
  let b ← read_register s r2
  let s1 ← set_register s r1 (a ||| b)
  some (advance s1)

/-- src/cpu.rs Cpu::and. -/
def andReg (s : Cpu) (r1 r2 : Nat) : Option Cpu := do
  let a ← read_register s r1
  let b ← read_register s r2
  let s1 ← set_register s r1 (a &&& b)
  some (advance s1)

/-- src/cpu.rs Cpu::xor. -/
def xorReg (s : Cpu) (r1 r2 : Nat) : Option Cpu := do
  let a ← read_register s r1
  let b ← read_register s r2
  let s1 ← set_register s r1 (a ^^^ b)
  some (advance s1)

/-- src/cpu.rs Cpu::rand: value AND a fresh random byte from the oracle. -/
def randOp (s : Cpu) (r v : Nat) : Option Cpu := do
  let rand_val := s.rng s.rngCount % 256
  let s1 ← set_register {s with rngCount := s.rngCount + 1} r (v &&& rand_val)
  some (advance s1)

/-- src/cpu.rs Cpu::draw: gather value bytes at index, index+1, ...
(u16 address arithmetic, panic when a read is out of bounds), blit them,
store the flipped flag in register 0xF, raise draw_flag, advance. -/
def draw (s : Cpu) (r1 r2 v : Nat) : Option Cpu := do
  let x ← read_register s r1
  let y ← read_register s r2
  let sprite ← (List.range v).mapM (fun i => s.memory[wrap16 (s.index + i)]?)
  let res := Display.draw_sprite s.display sprite x y
  let s1 ← set_register {s with display := res.1} 0xF (if res.2 then 1 else 0)
  some (advance {s1 with draw_flag := true})

/-- src/cpu.rs Cpu::clear. -/
def clearOp (s : Cpu) : Cpu := advance {s with display := s.display.clearScreen}

/-- src/cpu.rs Cpu::skip_key: self.keys[reg_val as usize] panics when the
register holds a value of 16 or more. -/
def skip_key (s : Cpu) (r : Nat) : Option Cpu := do
  let a ← read_register s r
  let pressed ← s.keys[a]?
  let pc_skip := if pressed then INSTRUCTION_SIZE * 2 else INSTRUCTION_SIZE
  some {s with pc := wrap16 (s.pc + pc_skip)}

/-- src/cpu.rs Cpu::skip_not_key. -/
def skip_not_key (s : Cpu) (r : Nat) : Option Cpu := do
  let a ← read_register s r
  let pressed ← s.keys[a]?
  let pc_skip := if pressed then INSTRUCTION_SIZE else INSTRUCTION_SIZE * 2
  some {s with pc := wrap16 (s.pc + pc_skip)}

/-- src/cpu.rs Cpu::add_index: self.index += reg value, u16 arithmetic. -/
def add_index (s : Cpu) (r : Nat) : Option Cpu := do
  let a ← read_register s r
  some (advance {s with index := wrap16 (s.index + a)})

/-- src/cpu.rs Cpu::load_digit: index = reg value * 5 (u16). -/
def load_digit (s : Cpu) (r : Nat) : Option Cpu := do
  let a ← read_register s r
  some (advance {s with index := wrap16 (a * 5)})

/-- src/cpu.rs Cpu::load_bcd: three direct memory writes at index,
index+1, index+2 (u16 address arithmetic, panic out of bounds). -/
def load_bcd (s : Cpu) (r : Nat) : Option Cpu := do
  let v ← read_register s r
  let m1 ← listSet? s.memory s.index (v / 100)
  let m2 ← listSet? m1 (wrap16 (s.index + 1)) ((v / 10) % 10)
  let m3 ← listSet? m2 (wrap16 (s.index + 2)) ((v % 100) % 10)
  some (advance {s with memory := m3})

/-- src/cpu.rs Cpu::store_index: for i in 0..(register+1) write
registers[i] to memory[index + i]. -/
def store_index (s : Cpu) (r : Nat) : Option Cpu := do
  let mem ← (List.range (r + 1)).foldlM
    (fun m i => do
      let v ← s.registers[i]?
      listSet? m (wrap16 (s.index + i)) v)
    s.memory
  some (advance {s with memory := mem})

/-- src/cpu.rs Cpu::read_index: for i in 0..(register+1) load
memory[index + i] into registers[i]. -/
def read_index (s : Cpu) (r : Nat) : Option Cpu := do
  let regs ← (List.range (r + 1)).foldlM
    (fun rs i => do
      let v ← s.memory[wrap16 (s.index + i)]?
      listSet? rs i v)
    s.registers
  some (advance {s with registers := regs})

/-- src/cpu.rs Cpu::execute_instruction. -/
def execute_instruction (s : Cpu) (i : Instruction) : Option Cpu :=
  match i with
  | .Clear => some (clearOp s)
  | .Return => ret s
  | .ExRoutine _ => some (noop s)
  | .Jump a => some (jump s a)
  | .Call a => call s a
  | .LoadVal r v => load_val s r v
  | .SkipIfEqual r v => skip_equal s r v
  | .SkipIfNotEqual r v => skip_not_equal s r v
  | .SkipIfRegEqual r1 r2 => skip_reg_equal s r1 r2
  | .AddVal r v => add_val s r v
  | .LoadReg r1 r2 => load_reg s r1 r2
  | .Or r1 r2 => orReg s r1 r2
  | .And r1 r2 => andReg s r1 r2
  | .Xor r1 r2 => xorReg s r1 r2
  | .AddReg r1 r2 => add_reg s r1 r2
  | .SubReg r1 r2 => sub_reg s r1 r2
  | .ShiftRight r => shift_right s r
  | .ShiftLeft r => shift_left s r
  | .SetIndexRegister a => some (set_index s a)
  | .Random r v => randOp s r v
  | .Draw r1 r2 v => draw s r1 r2 v
  | .SkipIfKey r => skip_key s r
  | .SkipIfNotKey r => skip_not_key s r
  | .AddIndex r => add_index s r
  | .LoadDigit r => load_digit s r
  | .LoadBCD r => load_bcd s r
  | .StoreIndex r => store_index s r
  | .ReadIndex r => read_index s r
  | .InvalidOperation => some s

/-- src/cpu.rs Cpu::handle_timers.  The remainder by timer_tick panics
(none) when timer_tick is zero, which the source computes as
clock_speed / 60. -/
def handle_timers (s : Cpu) : Option Cpu :=
  if s.timer_tick = 0 then none
  else if s.tick % s.timer_tick ≠ 0 then some s
  else
    let s1 := if 0 < s.del_timer then {s with del_timer := s.del_timer - 1} else s
    some (if 0 < s1.sound_timer then {s1 with sound_timer := s1.sound_timer - 1} else s1)

/-- src/cpu.rs Cpu::read_next_instruction: big-endian fetch of the two
bytes at pc and pc+1 (u16 address arithmetic, panic out of bounds). -/
def read_next_instruction (s : Cpu) : Option Nat := do
  let upper ← s.memory[s.pc]?
  let lower ← s.memory[wrap16 (s.pc + 1)]?
  some ((upper <<< 8) ||| lower)

/-- src/cpu.rs Cpu::cycle: no-op when faulted; otherwise fetch, decode,
latch the fault flag on an invalid decode with no other state change, and
otherwise execute, run the timers, and bump the tick counter (u32). -/
def cycle (s : Cpu) : Option Cpu :=
  if s.faulted then some s
  else do
    let raw ← read_next_instruction s
    if parse raw = .InvalidOperation then some {s with faulted := true}
    else do
      let s1 ← execute_instruction s (parse raw)
      let s2 ← handle_timers s1
      some {s2 with tick := wrap32 (s2.tick + 1)}

/-- Iterated cycle calls. -/
def runCycles : Nat → Cpu → Option Cpu
  | 0, s => some s
  | n + 1, s => (runCycles n s).bind cycle

/-- Helper of Cpu::new: copy a byte list into memory one byte at a time
starting at a given address (the enumerate loops of the constructor). -/
def writeBytes : List Nat → Nat → List Nat → List Nat
  | mem, _, [] => mem
  | mem, start, b :: rest => writeBytes (mem.set start b) (start + 1) rest

/-- src/cpu.rs Cpu::new: game data copied in at 0x200, glyph sprites at 0,
pc starts at 0x200, timer_tick = clock_speed / 60.  (The writes are in
bounds for any image that fits in memory; an oversized image is a
construction-time misconfiguration.) -/
def Cpu.new (game_data : List Nat) (clock_speed : Nat) (rng : Nat → Nat)
    (debug_mode : Bool) : Cpu :=
  let mem0 : List Nat := List.replicate 4096 0
  let mem1 := writeBytes mem0 0x200 game_data
  let mem2 := writeBytes mem1 0 SPRITES
  { memory := mem2
    registers := List.replicate 16 0
    index := 0
    pc := 0x200
    stack := List.replicate 16 0
    sp := 0
    del_timer := 0
    sound_timer := 0
    tick := 0
    timer_tick := clock_speed / 60
    keys := List.replicate 16 false
    debug_mode := debug_mode
    display := ⟨emptyScreen⟩
    draw_flag := false
    faulted := false
    rng := rng
    rngCount := 0 }

/-- A fixed oracle stream standing for the random generator in tests. -/
def rngZero : Nat → Nat := fun _ => 0

/-- A small concrete machine state used by the concrete instances below:
zeroed registers and stack, empty screen, pc 0, timer cadence 6. -/
def cpu0 : Cpu :=
  { memory := []
    registers := List.replicate 16 0
    index := 0
    pc := 0
    stack := List.replicate 16 0
    sp := 0
    del_timer := 0
    sound_timer := 0
    tick := 0
    timer_tick := 6
    keys := List.replicate 16 false
    debug_mode := false
    display := ⟨emptyScreen⟩
    draw_flag := false
    faulted := false
    rng := rngZero
    rngCount := 0 }

/-- The screen after one full-byte sprite draw at the origin. -/
def d1 : Display := (Display.draw_sprite ⟨emptyScreen⟩ [0xFF] 0 0).1

/-- Machine whose registers hold 1 in V0 and 5 in VF. -/
def subVF : Cpu :=
  {cpu0 with registers := [1, 0, 0, 0, 0, 0, 0, 0, 0, 0, 0, 0, 0, 0, 0, 5]}

/-- Machine whose registers hold 1 in V0 and 2 in V1 (the spec example). -/
def subW : Cpu :=
  {cpu0 with registers := [1, 2, 0, 0, 0, 0, 0, 0, 0, 0, 0, 0, 0, 0, 0, 0]}

/-- Machine whose registers hold 0xFF in V0 and 0x02 in V1. -/
def addW : Cpu :=
  {cpu0 with registers := [0xFF, 0x02, 0, 0, 0, 0, 0, 0, 0, 0, 0, 0, 0, 0, 0, 0]}

/-- A freshly constructed machine whose two-byte program is a single jump
to address 0xFFF. -/
def crashCpu : Cpu := Cpu.new [0x1F, 0xFF] 360 rngZero false

/-- A machine looping on a jump-to-zero instruction, delay and sound
timers at 5, with the timer cadence of a 120 Hz clock (120 / 60 = 2). -/
def loopCpu : Cpu :=
  {cpu0 with memory := [0x10, 0x00], del_timer := 5, sound_timer := 5,
             timer_tick := 2}

/-- The loop machine after two cycles. -/
def loopEnd : Cpu := {loopCpu with del_timer := 4, sound_timer := 4, tick := 2}

/-- A machine already in the faulted state. -/
def faultedCpu : Cpu := {cpu0 with faulted := true}

/-- A machine with full-size zeroed memory and the pc at the last two
bytes. -/
def edgeCpu : Cpu := {cpu0 with memory := List.replicate 4096 0, pc := 0xFFE}

/-- A machine about to fetch the invalid word 0x9000. -/
def invCpu : Cpu := {cpu0 with memory := [0x90, 0x00]}

/- ----------------------------------------------------------------- -/
/- Helper lemmas                                                      -/
/- ----------------------------------------------------------------- -/

/-- In-bounds list lookup phrased with getD. -/
theorem getElem?_eq_getD {l : List Nat} {i : Nat} (h : i < l.length) :
    l[i]? = some (l.getD i 0) := by
  rw [List.getD_eq_getElem?_getD, List.getElem?_eq_getElem h]
  rfl

/-- The borrow branch of sub_reg computes the mathematical difference
modulo 256. -/
theorem wrapSub_eq (a b : Nat) (ha : a < 256) (hb : b < 256) :
    (if b ≤ a then a - b else wrap8 (a + 256 - b)) =
      (((a : Int) - b) % 256).toNat := by
  unfold wrap8
  split <;> omega

/- ----------------------------------------------------------------- -/
/- Claims                                                             -/
/- ----------------------------------------------------------------- -/

/-- Claim C1 (code evaluation at the failing input): the source
draw-sprite overwrites each in-bounds cell with the sprite bit instead of
XOR-ing it in.  Drawing a fully-set one-byte sprite at the origin on the
empty screen sets the 8 pixels and reports no collision; drawing the same
sprite again leaves all 8 pixels SET and again reports collision = false,
where the claimed XOR semantics would clear all 8 pixels and report
collision = true. -/
theorem draw_sprite_overwrite_at_origin :
    (Display.draw_sprite ⟨emptyScreen⟩ [0xFF] 0 0).2 = false ∧
    (screenGet d1.screen 0 0 = true ∧ screenGet d1.screen 0 1 = true ∧
     screenGet d1.screen 0 2 = true ∧ screenGet d1.screen 0 3 = true ∧
     screenGet d1.screen 0 4 = true ∧ screenGet d1.screen 0 5 = true ∧
     screenGet d1.screen 0 6 = true ∧ screenGet d1.screen 0 7 = true) ∧
    (Display.draw_sprite d1 [0xFF] 0 0).2 = false ∧
    (screenGet (Display.draw_sprite d1 [0xFF] 0 0).1.screen 0 0 = true ∧
     screenGet (Display.draw_sprite d1 [0xFF] 0 0).1.screen 0 1 = true ∧
     screenGet (Display.draw_sprite d1 [0xFF] 0 0).1.screen 0 2 = true ∧
     screenGet (Display.draw_sprite d1 [0xFF] 0 0).1.screen 0 3 = true ∧
     screenGet (Display.draw_sprite d1 [0xFF] 0 0).1.screen 0 4 = true ∧
     screenGet (Display.draw_sprite d1 [0xFF] 0 0).1.screen 0 5 = true ∧
     screenGet (Display.draw_sprite d1 [0xFF] 0 0).1.screen 0 6 = true ∧
     screenGet (Display.draw_sprite d1 [0xFF] 0 0).1.screen 0 7 = true) := by
  decide

/-- Claim C3 (counterexample): the word 0x5001 does NOT decode to the
invalid-operation variant; the decoder ignores the low nibble of family
0x5 and yields skip-if-registers-equal. -/
theorem parse_0x5001_not_invalid :
    parse 0x5001 = Instruction.SkipIfRegEqual 0 0 ∧
    parse 0x5001 ≠ Instruction.InvalidOperation := by
  decide

/-- Claim C3 (amended): every word with top nibble 0x9 and every word
with top nibble 0xB decodes to the invalid-operation variant, while every
word of family 0x5 — whatever its low nibble — decodes to
skip-if-registers-equal. -/
theorem parse_family_gaps :
    (∀ w : Nat, w &&& 0xF000 = 0x9000 → parse w = Instruction.InvalidOperation) ∧
    (∀ w : Nat, w &&& 0xF000 = 0xB000 → parse w = Instruction.InvalidOperation) ∧
    (∀ w : Nat, w &&& 0xF000 = 0x5000 →
      parse w = Instruction.SkipIfRegEqual (reg1 w) (reg2 w)) := by
  refine ⟨fun w h => ?_, fun w h => ?_, fun w h => ?_⟩ <;> simp [parse, h]

/-- Witness for parse_family_gaps at concrete inputs. -/
theorem parse_family_gaps_witness :
    parse 0x9ABC = Instruction.InvalidOperation ∧
    parse 0xB123 = Instruction.InvalidOperation ∧
    parse 0x5671 = Instruction.SkipIfRegEqual 6 7 := by
  refine ⟨parse_family_gaps.1 0x9ABC (by decide),
          parse_family_gaps.2.1 0xB123 (by decide), ?_⟩
  have h := parse_family_gaps.2.2 0x5671 (by decide)
  simpa [reg1, reg2] using h

/-- Claim C5: the decoder is a total pure function: for every 16-bit word
it yields exactly one variant of the closed instruction type, with no
failure path (the embedding of Instruction::parse is a total Lean
function), and the result depends on nothing but the input word. -/
theorem parse_total_unique (w : Nat) (hw : w < 65536) :
    ∃ i : Instruction, parse w = i ∧ ∀ j : Instruction, parse w = j → j = i :=
  ⟨parse w, rfl, fun _ h => h.symm⟩

/-- Witness for parse_total_unique at a concrete input. -/
theorem parse_total_unique_witness :
    ∃ i : Instruction, parse 0xD125 = i ∧
      ∀ j : Instruction, parse 0xD125 = j → j = i :=
  parse_total_unique 0xD125 (by decide)

/-- Claim C10: push_stack increments the stack pointer before writing, so
a push from pointer p lands in slot p+1: slot 0 is never touched, and a
push with the pointer at 15 (the 16th nested call) indexes slot 16,
outside the 16-element array, instead of storing a 16th return address. -/
theorem push_stack_off_by_one (s : Cpu) (v : Nat) (hlen : s.stack.length = 16) :
    (s.sp < 15 → ∃ s2, push_stack s v = some s2 ∧ s2.sp = s.sp + 1 ∧
      s2.stack = s.stack.set (s.sp + 1) v ∧ s2.stack[0]? = s.stack[0]?) ∧
    (s.sp = 15 → push_stack s v = none) := by
  constructor
  · intro hsp
    have hw : wrap16 (s.sp + 1) = s.sp + 1 := Nat.mod_eq_of_lt (by omega)
    have hlt : s.sp + 1 < s.stack.length := by omega
    refine ⟨{s with sp := s.sp + 1, stack := s.stack.set (s.sp + 1) v},
            ?_, rfl, rfl, ?_⟩
    · unfold push_stack
      simp only [hw]
      rw [if_pos hlt]
    · exact List.getElem?_set_ne (by omega)
  · intro hsp
    unfold push_stack
    have hw : wrap16 (s.sp + 1) = 16 := by rw [hsp]; rfl
    simp only [hw]
    rw [if_neg (by omega)]

/-- Witness for push_stack_off_by_one: a push from pointer 0 lands in
slot 1 and a push from pointer 15 fails. -/
theorem push_stack_off_by_one_witness :
    (∃ s2, push_stack cpu0 0x123 = some s2 ∧ s2.sp = cpu0.sp + 1 ∧
      s2.stack = cpu0.stack.set (cpu0.sp + 1) 0x123 ∧
      s2.stack[0]? = cpu0.stack[0]?) ∧
    push_stack {cpu0 with sp := 15} 7 = none :=
  ⟨(push_stack_off_by_one cpu0 0x123 (by decide)).1 (by decide),
   (push_stack_off_by_one {cpu0 with sp := 15} 7 (by decide)).2 rfl⟩

/-- Claim C8 (counterexample): with the stack pointer at 15 — a machine
state the claim quantifies over, reachable after 15 nested calls — the
call operation itself crashes on an out-of-bounds stack write, so the
round trip does not restore anything. -/
theorem call_at_full_stack_crashes :
    call {cpu0 with sp := 15} 0x300 = none := rfl

/-- Claim C8 (amended): for every machine state whose stack pointer is
below 15 and every address, call pushes the current pc into slot sp+1 and
jumps to the address, and the following return pops that value back into
the pc with no extra advance, restoring the exact pre-call pc and the
prior stack pointer. -/
theorem call_ret_roundtrip (s : Cpu) (a : Nat) (hlen : s.stack.length = 16)
    (hsp : s.sp + 1 < 16) :
    ∃ s1 s2, call s a = some s1 ∧ s1.pc = a ∧
      s1.stack[s.sp + 1]? = some s.pc ∧
      ret s1 = some s2 ∧ s2.pc = s.pc ∧ s2.sp = s.sp := by
  have hw : wrap16 (s.sp + 1) = s.sp + 1 := Nat.mod_eq_of_lt (by omega)
  have hlt : s.sp + 1 < s.stack.length := by omega
  have hget : (s.stack.set (s.sp + 1) s.pc)[s.sp + 1]? = some s.pc :=
    List.getElem?_set_self hlt
  have hwrap : wrap16 (s.sp + 1 + 65535) = s.sp := by
    unfold wrap16
    omega
  have hpush : push_stack s s.pc =
      some {s with sp := s.sp + 1, stack := s.stack.set (s.sp + 1) s.pc} := by
    unfold push_stack
    simp only [hw]
    rw [if_pos hlt]
  have hcall : call s a =
      some {s with
              sp := s.sp + 1
              stack := s.stack.set (s.sp + 1) s.pc
              pc := a} := by
    unfold call
    rw [hpush]
    rfl
  have hret : ret {s with
      sp := s.sp + 1
      stack := s.stack.set (s.sp + 1) s.pc
      pc := a} = some {s with stack := s.stack.set (s.sp + 1) s.pc} := by
    simp only [ret, pop_stack, set_program_counter]
    rw [hget]
    simp only [Option.some_bind, hwrap]
    rfl
  exact ⟨_, _, hcall, rfl, hget, hret, rfl, rfl⟩

/-- Unfolding of sub_reg when both register indices are in bounds and
hold the values a and b. -/
theorem sub_reg_eq (s : Cpu) (r1 r2 a b : Nat) (h1 : r1 < s.registers.length)
    (hF : 15 < s.registers.length)
    (e1 : s.registers[r1]? = some a) (e2 : s.registers[r2]? = some b) :
    sub_reg s r1 r2 = some (advance {s with registers := (s.registers.set r1 (if b ≤ a then a - b else wrap8 (a + 256 - b))).set 15 (if b ≤ a then 1 else 0)}) := by
  simp [sub_reg, read_register, set_register, e1, e2, h1, hF, List.length_set]

/-- Unfolding of add_reg when both register indices are in bounds and
hold the values a and b. -/
theorem add_reg_eq (s : Cpu) (r1 r2 a b : Nat) (h1 : r1 < s.registers.length)
    (hF : 15 < s.registers.length)
    (e1 : s.registers[r1]? = some a) (e2 : s.registers[r2]? = some b) :
    add_reg s r1 r2 = some (advance {s with registers := (s.registers.set r1 (if a + b ≤ 255 then a + b else wrap8 (a + b))).set 15 (if a + b ≤ 255 then 0 else 1)}) := by
  simp [add_reg, read_register, set_register, e1, e2, h1, hF, List.length_set]

/-- Unfolding of add_index when the register index is in bounds and holds
the value a. -/
theorem add_index_eq (s : Cpu) (r a : Nat)
    (e1 : s.registers[r]? = some a) :
    add_index s r = some (advance {s with index := wrap16 (s.index + a)}) := by
  simp [add_index, read_register, e1]

/-- Claim C6 (counterexample): with VF = 5 and V0 = 1, executing
sub-registers with r1 = VF and r2 = V0 leaves VF = 1 (the borrow flag),
not the claimed difference 5 - 1 = 4: the flag write overwrites the
difference when r1 is the flag register. -/
theorem sub_reg_flag_overwrites_difference :
    (sub_reg subVF 15 0).map (fun t => t.registers.getD 15 0) = some 1 ∧
    (sub_reg subVF 15 0).map (fun t => t.registers.getD 15 0) ≠ some (5 - 1) := by
  decide

/-- Claim C6 (amended): sub-registers always sets register 0xF to 1 when
the original r1 value is at least the r2 value (no borrow) and to 0
otherwise, and — provided r1 is not the flag register itself, in which
case the flag write overwrites the difference — sets r1 to the difference
modulo 2^8, then advances the pc by 2. -/
theorem sub_reg_semantics (s : Cpu) (r1 r2 : Nat)
    (h1 : r1 < 16) (h2 : r2 < 16) (hlen : s.registers.length = 16)
    (hv1 : s.registers.getD r1 0 < 256) (hv2 : s.registers.getD r2 0 < 256) :
    ∃ s2, sub_reg s r1 r2 = some s2 ∧
      s2.registers.getD 15 0 =
        (if s.registers.getD r2 0 ≤ s.registers.getD r1 0 then 1 else 0) ∧
      (r1 ≠ 15 → s2.registers.getD r1 0 =
        (((s.registers.getD r1 0 : Int) - (s.registers.getD r2 0 : Int))
          % 256).toNat) ∧
      s2.pc = wrap16 (s.pc + 2) := by
  have h1' : r1 < s.registers.length := by omega
  have h2' : r2 < s.registers.length := by omega
  have hF : 15 < s.registers.length := by omega
  have e1 := getElem?_eq_getD h1'
  have e2 := getElem?_eq_getD h2'
  refine ⟨_, sub_reg_eq s r1 r2 _ _ h1' hF e1 e2, ?_, ?_, rfl⟩
  · show ((s.registers.set r1 _).set 15 _).getD 15 0 = _
    rw [List.getD_eq_getElem?_getD,
        List.getElem?_set_self (by rw [List.length_set]; omega)]
    rfl
  · intro hne
    show ((s.registers.set r1 _).set 15 _).getD r1 0 = _
    rw [List.getD_eq_getElem?_getD,
        List.getElem?_set_ne (by omega : (15 : Nat) ≠ r1),
        List.getElem?_set_self h1']
    exact wrapSub_eq _ _ hv1 hv2

/-- Witness for sub_reg_semantics at the spec example V0 = 1, V1 = 2
(the values evaluate to V0 = 0xFF and flag 0). -/
theorem sub_reg_semantics_witness :
    ∃ s2, sub_reg subW 0 1 = some s2 ∧
      s2.registers.getD 15 0 =
        (if subW.registers.getD 1 0 ≤ subW.registers.getD 0 0 then 1 else 0) ∧
      ((0 : Nat) ≠ 15 → s2.registers.getD 0 0 =
        (((subW.registers.getD 0 0 : Int) - (subW.registers.getD 1 0 : Int))
          % 256).toNat) ∧
      s2.pc = wrap16 (subW.pc + 2) :=
  sub_reg_semantics subW 0 1 (by decide) (by decide) (by decide) (by decide)
    (by decide)

/-- Claim C4: for all in-range register indices and all 8-bit register
contents, register addition, register subtraction and index addition are
total — they never fail or signal an error — and wrap silently to their
fixed width: the sum and difference are reduced modulo 2^8 and the index
sum modulo 2^16.  (Arithmetic is modelled with the wrapping semantics the
source computes through its checked_add / checked_sub branches and
casts.) -/
theorem arithmetic_total_wraps (s : Cpu) (r1 r2 : Nat)
    (h1 : r1 < 16) (h2 : r2 < 16) (hlen : s.registers.length = 16)
    (hv1 : s.registers.getD r1 0 < 256) (hv2 : s.registers.getD r2 0 < 256) :
    (∃ s2, add_reg s r1 r2 = some s2 ∧ (r1 ≠ 15 →
      s2.registers.getD r1 0 =
        (s.registers.getD r1 0 + s.registers.getD r2 0) % 256)) ∧
    (∃ s2, sub_reg s r1 r2 = some s2 ∧ (r1 ≠ 15 →
      s2.registers.getD r1 0 =
        (((s.registers.getD r1 0 : Int) - (s.registers.getD r2 0 : Int))
          % 256).toNat)) ∧
    (∃ s2, add_index s r1 = some s2 ∧
      s2.index = (s.index + s.registers.getD r1 0) % 65536) := by
  have h1' : r1 < s.registers.length := by omega
  have h2' : r2 < s.registers.length := by omega
  have hF : 15 < s.registers.length := by omega
  have e1 := getElem?_eq_getD h1'
  have e2 := getElem?_eq_getD h2'
  refine ⟨⟨_, add_reg_eq s r1 r2 _ _ h1' hF e1 e2, ?_⟩,
          ⟨_, sub_reg_eq s r1 r2 _ _ h1' hF e1 e2, ?_⟩,
          ⟨_, add_index_eq s r1 _ e1, rfl⟩⟩
  · intro hne
    show ((s.registers.set r1 _).set 15 _).getD r1 0 = _
    rw [List.getD_eq_getElem?_getD,
        List.getElem?_set_ne (by omega : (15 : Nat) ≠ r1),
        List.getElem?_set_self h1']
    show (if s.registers.getD r1 0 + s.registers.getD r2 0 ≤ 255
          then s.registers.getD r1 0 + s.registers.getD r2 0
          else wrap8 (s.registers.getD r1 0 + s.registers.getD r2 0)) = _
    unfold wrap8
    split <;> omega
  · intro hne
    show ((s.registers.set r1 _).set 15 _).getD r1 0 = _
    rw [List.getD_eq_getElem?_getD,
        List.getElem?_set_ne (by omega : (15 : Nat) ≠ r1),
        List.getElem?_set_self h1']
    exact wrapSub_eq _ _ hv1 hv2

/-- Witness for arithmetic_total_wraps at the overflow example V0 = 0xFF,
V1 = 0x02. -/
theorem arithmetic_total_wraps_witness :
    (∃ s2, add_reg addW 0 1 = some s2 ∧ ((0 : Nat) ≠ 15 →
      s2.registers.getD 0 0 =
        (addW.registers.getD 0 0 + addW.registers.getD 1 0) % 256)) ∧
    (∃ s2, sub_reg addW 0 1 = some s2 ∧ ((0 : Nat) ≠ 15 →
      s2.registers.getD 0 0 =
        (((addW.registers.getD 0 0 : Int) - (addW.registers.getD 1 0 : Int))
          % 256).toNat)) ∧
    (∃ s2, add_index addW 0 = some s2 ∧
      s2.index = (addW.index + addW.registers.getD 0 0) % 65536) :=
  arithmetic_total_wraps addW 0 1 (by decide) (by decide) (by decide)
    (by decide) (by decide)

/-- Witness for call_ret_roundtrip at a concrete machine. -/
theorem call_ret_roundtrip_witness :
    ∃ s1 s2, call {cpu0 with pc := 0x345} 0x600 = some s1 ∧ s1.pc = 0x600 ∧
      s1.stack[({cpu0 with pc := 0x345} : Cpu).sp + 1]? =
        some ({cpu0 with pc := 0x345} : Cpu).pc ∧
      ret s1 = some s2 ∧ s2.pc = ({cpu0 with pc := 0x345} : Cpu).pc ∧
      s2.sp = ({cpu0 with pc := 0x345} : Cpu).sp :=
  call_ret_roundtrip {cpu0 with pc := 0x345} 0x600 (by decide) (by decide)

/-- Claim C7: once the fault flag is set, every later cycle call is a
no-op returning the state unchanged — the faulted state is terminal and
idempotent — and on the cycle where decode yields the invalid-operation
variant the only state change is setting the fault flag: registers,
memory, timers, pc and the tick counter are untouched that cycle. -/
theorem fault_latch_and_minimal_change :
    (∀ (s : Cpu) (n : Nat), s.faulted = true → runCycles n s = some s) ∧
    (∀ (s : Cpu) (raw : Nat), s.faulted = false →
      read_next_instruction s = some raw →
      parse raw = Instruction.InvalidOperation →
      cycle s = some {s with faulted := true}) := by
  constructor
  · intro s n h
    induction n with
    | zero => rfl
    | succ n ih =>
        show (runCycles n s).bind cycle = some s
        rw [ih]
        show cycle s = some s
        unfold cycle
        rw [h]
        rfl
  · intro s raw hf hfetch hparse
    unfold cycle
    rw [hf, hfetch]
    simp only [Bool.false_eq_true, if_false, Option.bind_eq_bind,
      Option.some_bind]
    rw [if_pos hparse]

/-- Witness for fault_latch_and_minimal_change: a faulted machine is
unchanged by three cycles, and fetching 0x9000 only sets the flag. -/
theorem fault_latch_and_minimal_change_witness :
    runCycles 3 faultedCpu = some faultedCpu ∧
    cycle invCpu = some {invCpu with faulted := true} :=
  ⟨fault_latch_and_minimal_change.1 faultedCpu 3 rfl,
   fault_latch_and_minimal_change.2 invCpu 0x9000 rfl rfl (by decide)⟩

/-- Claim C2 (amended): no address is reduced modulo the memory size; the
accesses index the 4096-byte array directly, so the instruction fetch
succeeds exactly when pc+1 is below 4096 and the three BCD writes succeed
exactly when index+2 is below 4096 — outside those bounds the access
indexes past the end of the array and the machine crashes. -/
theorem memory_access_no_modulo (s : Cpu) (r : Nat)
    (hmem : s.memory.length = 4096) (hr : r < 16)
    (hreg : s.registers.length = 16) :
    ((read_next_instruction s).isSome ↔ s.pc + 1 < 4096) ∧
    ((load_bcd s r).isSome ↔ s.index + 2 < 4096) := by
  constructor
  · unfold read_next_instruction
    by_cases h : s.pc + 1 < 4096
    · have hpc' : s.pc < s.memory.length := by omega
      have h2 : wrap16 (s.pc + 1) < s.memory.length := by
        unfold wrap16
        rw [Nat.mod_eq_of_lt (by omega)]
        omega
      rw [List.getElem?_eq_getElem hpc', List.getElem?_eq_getElem h2]
      simp [h]
    · rcases Nat.lt_or_ge s.pc 4096 with hlt | hge
      · have hpc' : s.pc < s.memory.length := by omega
        have h2 : s.memory.length ≤ wrap16 (s.pc + 1) := by
          unfold wrap16
          rw [Nat.mod_eq_of_lt (by omega)]
          omega
        rw [List.getElem?_eq_getElem hpc', List.getElem?_eq_none h2]
        simp [h]
      · have h1 : s.memory.length ≤ s.pc := by omega
        rw [List.getElem?_eq_none h1]
        simp [h]
  · have hv := getElem?_eq_getD (show r < s.registers.length by omega)
    unfold load_bcd read_register
    rw [hv]
    simp only [Option.bind_eq_bind, Option.some_bind]
    generalize s.registers.getD r 0 = v
    by_cases hA : s.index < 4096
    · rw [show listSet? s.memory s.index (v / 100) =
          some (s.memory.set s.index (v / 100)) from by
        unfold listSet?
        rw [if_pos (by omega : s.index < s.memory.length)]]
      simp only [Option.some_bind]
      have len1 : (s.memory.set s.index (v / 100)).length = 4096 := by
        rw [List.length_set, hmem]
      have hw1 : wrap16 (s.index + 1) = s.index + 1 := by
        unfold wrap16
        omega
      rw [hw1]
      by_cases hB : s.index + 1 < 4096
      · rw [show listSet? (s.memory.set s.index (v / 100)) (s.index + 1)
            (v / 10 % 10) = some ((s.memory.set s.index (v / 100)).set
            (s.index + 1) (v / 10 % 10)) from by
          unfold listSet?
          rw [if_pos (by rw [len1]; omega)]]
        simp only [Option.some_bind]
        have len2 : ((s.memory.set s.index (v / 100)).set (s.index + 1)
            (v / 10 % 10)).length = 4096 := by
          rw [List.length_set, len1]
        have hw2 : wrap16 (s.index + 2) = s.index + 2 := by
          unfold wrap16
          omega
        rw [hw2]
        by_cases hC : s.index + 2 < 4096
        · rw [show listSet? ((s.memory.set s.index (v / 100)).set (s.index + 1)
              (v / 10 % 10)) (s.index + 2) (v % 100 % 10) =
              some (((s.memory.set s.index (v / 100)).set (s.index + 1)
              (v / 10 % 10)).set (s.index + 2) (v % 100 % 10)) from by
            unfold listSet?
            rw [if_pos (by rw [len2]; omega)]]
          simp only [Option.some_bind]
          exact iff_of_true (by simp) hC
        · rw [show listSet? ((s.memory.set s.index (v / 100)).set (s.index + 1)
              (v / 10 % 10)) (s.index + 2) (v % 100 % 10) = none from by
            unfold listSet?
            rw [if_neg (by rw [len2]; omega)]]
          exact iff_of_false (by simp) (by omega)
      · rw [show listSet? (s.memory.set s.index (v / 100)) (s.index + 1)
            (v / 10 % 10) = none from by
          unfold listSet?
          rw [if_neg (by rw [len1]; omega)]]
        exact iff_of_false (by simp) (by omega)
    · rw [show listSet? s.memory s.index (v / 100) = none from by
        unfold listSet?
        rw [if_neg (by omega : ¬ s.index < s.memory.length)]]
      exact iff_of_false (by simp) (by omega)

/-- Witness for memory_access_no_modulo at a concrete machine whose pc
sits at the last two bytes of memory. -/
theorem memory_access_no_modulo_witness :
    ((read_next_instruction edgeCpu).isSome ↔ edgeCpu.pc + 1 < 4096) ∧
    ((load_bcd edgeCpu 0).isSome ↔ edgeCpu.index + 2 < 4096) :=
  memory_access_no_modulo edgeCpu 0
    (by rw [show edgeCpu.memory = List.replicate 4096 0 from rfl]
        exact List.length_replicate 4096 0)
    (by decide) (by decide)

/-- The length of memory is invariant under writeBytes. -/
theorem writeBytes_length (mem : List Nat) (start : Nat) (data : List Nat) :
    (writeBytes mem start data).length = mem.length := by
  induction data generalizing mem start with
  | nil => rfl
  | cons b rest ih => simp [writeBytes, ih, List.length_set]

/-- writeBytes does not touch cells below the write window. -/
theorem writeBytes_getElem_lt (mem : List Nat) (start : Nat) (data : List Nat)
    (j : Nat) (h : j < start) :
    (writeBytes mem start data)[j]? = mem[j]? := by
  induction data generalizing mem start with
  | nil => rfl
  | cons b rest ih =>
      show (writeBytes (mem.set start b) (start + 1) rest)[j]? = mem[j]?
      rw [ih _ _ (by omega)]
      exact List.getElem?_set_ne (by omega)

/-- writeBytes does not touch cells above the write window. -/
theorem writeBytes_getElem_ge (mem : List Nat) (start : Nat) (data : List Nat)
    (j : Nat) (h : start + data.length ≤ j) :
    (writeBytes mem start data)[j]? = mem[j]? := by
  induction data generalizing mem start with
  | nil => rfl
  | cons b rest ih =>
      show (writeBytes (mem.set start b) (start + 1) rest)[j]? = mem[j]?
      rw [ih _ _ (by simp at h; omega)]
      exact List.getElem?_set_ne (by simp at h; omega)

/-- Inside the write window, writeBytes installs the data bytes. -/
theorem writeBytes_getElem_in (mem : List Nat) (start : Nat) (data : List Nat)
    (j : Nat) (h1 : start ≤ j) (h2 : j < start + data.length)
    (h3 : j < mem.length) :
    (writeBytes mem start data)[j]? = data[j - start]? := by
  induction data generalizing mem start with
  | nil => simp at h2; omega
  | cons b rest ih =>
      show (writeBytes (mem.set start b) (start + 1) rest)[j]? = _
      rcases Nat.eq_or_lt_of_le h1 with he | hlt
      · rw [← he, writeBytes_getElem_lt _ _ _ _ (by omega),
            List.getElem?_set_self (he ▸ h3), Nat.sub_self,
            List.getElem?_cons_zero]
      · rw [ih (mem.set start b) (start + 1) (by omega)
            (by simp at h2 ⊢; omega) (by rw [List.length_set]; omega)]
        rw [show j - start = (j - (start + 1)) + 1 by omega,
            List.getElem?_cons_succ]

/-- The memory of the crash machine, unfolded to its two write passes. -/
theorem crashCpu_memory_def : crashCpu.memory =
    writeBytes (writeBytes (List.replicate 4096 0) 0x200 [0x1F, 0xFF]) 0
      SPRITES := rfl

/-- Memory cell 512 of the crash machine holds the first program byte. -/
theorem crashCpu_mem_512 : crashCpu.memory[512]? = some 0x1F := by
  rw [crashCpu_memory_def,
      writeBytes_getElem_ge _ _ _ _ (by decide),
      writeBytes_getElem_in _ _ _ _ (by decide) (by decide)
        (by rw [List.length_replicate]; omega)]
  decide

/-- Memory cell 513 of the crash machine holds the second program byte. -/
theorem crashCpu_mem_513 : crashCpu.memory[513]? = some 0xFF := by
  rw [crashCpu_memory_def,
      writeBytes_getElem_ge _ _ _ _ (by decide),
      writeBytes_getElem_in _ _ _ _ (by decide) (by decide)
        (by rw [List.length_replicate]; omega)]
  decide

/-- Memory cell 4095 of the crash machine holds zero. -/
theorem crashCpu_mem_4095 : crashCpu.memory[4095]? = some 0 := by
  rw [crashCpu_memory_def,
      writeBytes_getElem_ge _ _ _ _ (by decide),
      writeBytes_getElem_ge _ _ _ _ (by decide),
      List.getElem?_replicate]
  decide

/-- The crash machine has 4096 bytes of memory. -/
theorem crashCpu_mem_len : crashCpu.memory.length = 4096 := by
  rw [crashCpu_memory_def, writeBytes_length, writeBytes_length,
      List.length_replicate]

/-- Claim C2 (counterexample): from a freshly constructed machine whose
program is the single instruction jump-to-0xFFF, the first cycle sets
pc = 0xFFF and the second cycle's fetch reads pc and pc+1 = 4096 with no
modulo reduction, indexing outside the 4096-byte array (a crash,
modelled none) — so addresses are not taken modulo the memory size, and a
reachable pc value drives an access out of bounds. -/
theorem fetch_out_of_bounds_reachable :
    cycle crashCpu = some {crashCpu with pc := 0xFFF, tick := 1} ∧
    read_next_instruction {crashCpu with pc := 0xFFF, tick := 1} = none ∧
    runCycles 2 crashCpu = none := by
  have hfetch1 : read_next_instruction crashCpu = some 0x1FFF := by
    unfold read_next_instruction
    rw [show crashCpu.pc = 512 from rfl]
    rw [show wrap16 (512 + 1) = 513 from rfl]
    rw [crashCpu_mem_512, crashCpu_mem_513]
    rfl
  have hfetch2 : read_next_instruction {crashCpu with pc := 0xFFF, tick := 1}
      = none := by
    unfold read_next_instruction
    rw [show ({crashCpu with pc := 0xFFF, tick := 1} : Cpu).memory
      = crashCpu.memory from rfl]
    rw [show ({crashCpu with pc := 0xFFF, tick := 1} : Cpu).pc = 4095 from rfl]
    rw [crashCpu_mem_4095]
    rw [show wrap16 (4095 + 1) = 4096 from rfl]
    rw [List.getElem?_eq_none (le_of_eq crashCpu_mem_len)]
    rfl
  have hc1 : cycle crashCpu = some {crashCpu with pc := 0xFFF, tick := 1} := by
    unfold cycle
    rw [show crashCpu.faulted = false from rfl, hfetch1]
    simp only [Bool.false_eq_true, if_false, Option.bind_eq_bind,
      Option.some_bind]
    rw [show parse 0x1FFF = Instruction.Jump 0xFFF from by decide]
    rw [if_neg (by decide :
      ¬(Instruction.Jump 0xFFF = Instruction.InvalidOperation))]
    rw [show execute_instruction crashCpu (Instruction.Jump 0xFFF) =
      some {crashCpu with pc := 0xFFF} from rfl]
    simp only [Option.bind_eq_bind, Option.some_bind]
    rw [show handle_timers {crashCpu with pc := 0xFFF} =
      some {crashCpu with pc := 0xFFF} from rfl]
    rfl
  have hc2 : cycle {crashCpu with pc := 0xFFF, tick := 1} = none := by
    unfold cycle
    rw [show ({crashCpu with pc := 0xFFF, tick := 1} : Cpu).faulted = false
      from rfl]
    rw [hfetch2]
    rfl
  refine ⟨hc1, hfetch2, ?_⟩
  rw [show runCycles 2 crashCpu = (runCycles 1 crashCpu).bind cycle from rfl]
  rw [show runCycles 1 crashCpu = (runCycles 0 crashCpu).bind cycle from rfl]
  rw [show runCycles 0 crashCpu = some crashCpu from rfl]
  rw [Option.some_bind]
  rw [hc1, Option.some_bind, hc2]

/-- No instruction touches the timers, the tick counter or the cadence
divisor: executing any decoded instruction preserves all four fields. -/
theorem execute_preserves_timers (s : Cpu) (i : Instruction) (t : Cpu)
    (h : execute_instruction s i = some t) :
    t.del_timer = s.del_timer ∧ t.sound_timer = s.sound_timer ∧
    t.tick = s.tick ∧ t.timer_tick = s.timer_tick := by
  cases i <;>
    simp only [execute_instruction, clearOp, Display.clearScreen, ret, noop,
      jump, call, load_val, skip_equal, skip_not_equal, skip_reg_equal,
      add_val, load_reg, orReg, andReg, xorReg, add_reg, sub_reg, shift_right,
      shift_left, set_index, randOp, draw, skip_key, skip_not_key, add_index,
      load_digit, load_bcd, store_index, read_index, set_register,
      read_register, push_stack, pop_stack, set_program_counter, advance,
      listSet?, Option.bind_eq_bind, Option.bind_eq_some, Option.some.injEq,
      Option.ite_none_right_eq_some] at h <;>
    aesop

/-- The timer handler with a nonzero divisor: both timers decrement
exactly when the tick is a multiple of the divisor and they are
positive. -/
theorem handle_timers_eq (s1 : Cpu) (hN : s1.timer_tick ≠ 0) :
    handle_timers s1 = some {s1 with
      del_timer := if s1.tick % s1.timer_tick = 0 ∧ 0 < s1.del_timer then s1.del_timer - 1 else s1.del_timer
      sound_timer := if s1.tick % s1.timer_tick = 0 ∧ 0 < s1.sound_timer then s1.sound_timer - 1 else s1.sound_timer} := by
  unfold handle_timers
  rw [if_neg hN]
  by_cases hm : s1.tick % s1.timer_tick = 0
  · rw [if_neg (by omega : ¬ s1.tick % s1.timer_tick ≠ 0)]
    by_cases hd : 0 < s1.del_timer <;> by_cases hs : 0 < s1.sound_timer <;>
      simp [hm, hd, hs]
  · rw [if_pos hm]
    simp [hm]

/-- One non-faulted, non-faulting cycle advances the tick by one and
applies the timer rule at the pre-cycle tick value. -/
theorem cycle_timer_step (s t : Cpu) (hf : s.faulted = false)
    (ht : t.faulted = false) (hN : 0 < s.timer_tick) (hc : cycle s = some t) :
    t.tick = wrap32 (s.tick + 1) ∧ t.timer_tick = s.timer_tick ∧
    t.del_timer = (if s.tick % s.timer_tick = 0 ∧ 0 < s.del_timer then s.del_timer - 1 else s.del_timer) ∧
    t.sound_timer = (if s.tick % s.timer_tick = 0 ∧ 0 < s.sound_timer then s.sound_timer - 1 else s.sound_timer) := by
  unfold cycle at hc
  rw [hf] at hc
  simp only [Bool.false_eq_true, if_false, Option.bind_eq_bind,
    Option.bind_eq_some] at hc
  obtain ⟨raw, hraw, hc⟩ := hc
  by_cases hinv : parse raw = Instruction.InvalidOperation
  · rw [if_pos hinv] at hc
    simp only [Option.some.injEq] at hc
    rw [← hc] at ht
    simp at ht
  · rw [if_neg hinv] at hc
    simp only [Option.bind_eq_bind, Option.bind_eq_some, Option.some.injEq]
      at hc
    obtain ⟨s1, hs1, s2, hs2, hc⟩ := hc
    obtain ⟨hd, hsnd, htk, htt⟩ := execute_preserves_timers s (parse raw) s1 hs1
    rw [handle_timers_eq s1 (by omega)] at hs2
    simp only [Option.some.injEq] at hs2
    subst hs2
    subst hc
    refine ⟨?_, ?_, ?_, ?_⟩ <;> simp [htk, htt, hd, hsnd]

/-- In a window of N consecutive values starting at t, exactly the offset
(N - t mod N) mod N lands on a multiple of N. -/
theorem mod_window_hit (t N k : Nat) (hN : 0 < N) (hk : k < N) :
    ((t + k) % N = 0 ↔ k = (N - t % N) % N) := by
  have h1 : (t + k) % N = ((t % N) + k) % N := by
    conv_lhs => rw [Nat.add_mod]
    rw [Nat.mod_eq_of_lt hk]
  have hr : t % N < N := Nat.mod_lt _ hN
  rcases Nat.eq_zero_or_pos (t % N) with h0 | h0
  · rw [h1, h0, Nat.zero_add, Nat.mod_eq_of_lt hk, Nat.sub_zero, Nat.mod_self]
  · have hj : (N - t % N) % N = N - t % N := Nat.mod_eq_of_lt (by omega)
    rw [h1, hj]
    rcases Nat.lt_or_ge (t % N + k) N with hlt | hge
    · rw [Nat.mod_eq_of_lt hlt]
      omega
    · rw [Nat.mod_eq_sub_mod hge, Nat.mod_eq_of_lt (by omega)]
      omega

/-- Unfolding of the cycle iterator. -/
theorem runCycles_succ (n : Nat) (s : Cpu) :
    runCycles (n + 1) s = (runCycles n s).bind cycle := rfl

/-- A successful n-cycle run has successful prefixes. -/
theorem runCycles_some_le :
    ∀ (n k : Nat) (s t : Cpu), k ≤ n → runCycles n s = some t →
      ∃ u, runCycles k s = some u := by
  intro n
  induction n with
  | zero =>
      intro k s t hk h
      have hk0 : k = 0 := by omega
      subst hk0
      exact ⟨t, h⟩
  | succ n ih =>
      intro k s t hk h
      rcases Nat.lt_or_ge k (n + 1) with hlt | hge
      · rw [runCycles_succ] at h
        rcases Option.bind_eq_some.mp h with ⟨u, hu, _⟩
        exact ih k s u (by omega) hu
      · have hk2 : k = n + 1 := by omega
        subst hk2
        exact ⟨t, h⟩

/-- Claim C9: with the timer divisor N = clock / 60 set by construction
(positive whenever the configured clock rate is at least the 60 Hz
baseline), a window of N consecutive cycle calls that all execute an
instruction (no fault anywhere in the window, modelled by the hnf
hypothesis) decrements the positive delay and sound timers exactly once
and advances the tick counter by exactly N — so the countdown speed is
one decrement per N instruction cycles, independent of the chosen clock
rate.  With the clock at 120 Hz (2x the 60 Hz baseline) the delay timer
decrements once per two cycle calls. -/
theorem timer_cadence (s t : Cpu) (clock N : Nat)
    (hNdef : N = clock / 60) (h60 : 60 ≤ clock) (hN : s.timer_tick = N)
    (hdel : 0 < s.del_timer) (hsound : 0 < s.sound_timer)
    (htick : s.tick + N < 4294967296)
    (hrun : runCycles N s = some t)
    (hnf : ∀ k u, k ≤ N → runCycles k s = some u → u.faulted = false) :
    t.del_timer = s.del_timer - 1 ∧ t.sound_timer = s.sound_timer - 1 ∧
    t.tick = s.tick + N := by
  have hNpos : 0 < N := hNdef ▸ Nat.div_pos h60 (by omega)
  have key : ∀ k, k ≤ N → ∀ u, runCycles k s = some u →
      u.tick = s.tick + k ∧ u.timer_tick = N ∧
      u.del_timer = (if (N - s.tick % N) % N < k then s.del_timer - 1 else s.del_timer) ∧
      u.sound_timer = (if (N - s.tick % N) % N < k then s.sound_timer - 1 else s.sound_timer) := by
    intro k
    induction k with
    | zero =>
        intro _ u hu
        rw [show runCycles 0 s = some s from rfl] at hu
        cases hu
        simp [hN]
    | succ k ih =>
        intro hk u hu
        rw [runCycles_succ] at hu
        rcases Option.bind_eq_some.mp hu with ⟨w, hw, hcyc⟩
        obtain ⟨htk, htt, hdl, hsd⟩ := ih (by omega) w hw
        have hfw : w.faulted = false := hnf k w (by omega) hw
        have hfu : u.faulted = false := hnf (k + 1) u (by omega)
          (by rw [runCycles_succ, hw, Option.some_bind]; exact hcyc)
        have hNw : 0 < w.timer_tick := by omega
        obtain ⟨c1, c2, c3, c4⟩ := cycle_timer_step w u hfw hfu hNw hcyc
        have hhit := mod_window_hit s.tick N k hNpos (by omega)
        refine ⟨?_, by rw [c2, htt], ?_, ?_⟩
        · rw [c1, htk]
          unfold wrap32
          rw [Nat.mod_eq_of_lt (by omega)]
          omega
        · rw [c3, htk, htt, hdl]
          by_cases hkj : k = (N - s.tick % N) % N
          · have hnlt : ¬ (N - s.tick % N) % N < k := by omega
            rw [if_neg hnlt, if_pos ⟨hhit.mpr hkj, hdel⟩,
                if_pos (by omega : (N - s.tick % N) % N < k + 1)]
          · have hz : ¬ (s.tick + k) % N = 0 := fun hc0 => hkj (hhit.mp hc0)
            rw [if_neg (fun hconj => hz hconj.1)]
            by_cases hlt : (N - s.tick % N) % N < k
            · rw [if_pos hlt, if_pos (by omega)]
            · rw [if_neg hlt, if_neg (by omega)]
        · rw [c4, htk, htt, hsd]
          by_cases hkj : k = (N - s.tick % N) % N
          · have hnlt : ¬ (N - s.tick % N) % N < k := by omega
            rw [if_neg hnlt, if_pos ⟨hhit.mpr hkj, hsound⟩,
                if_pos (by omega : (N - s.tick % N) % N < k + 1)]
          · have hz : ¬ (s.tick + k) % N = 0 := fun hc0 => hkj (hhit.mp hc0)
            rw [if_neg (fun hconj => hz hconj.1)]
            by_cases hlt : (N - s.tick % N) % N < k
            · rw [if_pos hlt, if_pos (by omega)]
            · rw [if_neg hlt, if_neg (by omega)]
  obtain ⟨ht1, _, ht3, ht4⟩ := key N le_rfl t hrun
  have hj0 : (N - s.tick % N) % N < N := Nat.mod_lt _ hNpos
  rw [if_pos hj0] at ht3 ht4
  exact ⟨ht3, ht4, ht1⟩

/-- Witness for timer_cadence: a 120 Hz machine looping on a jump, with
both timers at 5: after two cycle calls each timer has decremented once
and the tick counter has advanced by two. -/
theorem timer_cadence_witness :
    loopEnd.del_timer = loopCpu.del_timer - 1 ∧
    loopEnd.sound_timer = loopCpu.sound_timer - 1 ∧
    loopEnd.tick = loopCpu.tick + 2 :=
  timer_cadence loopCpu loopEnd 120 2 rfl (by decide) rfl (by decide)
    (by decide) (by decide) rfl
    (by
      intro k u hk hr
      interval_cases k
      · rw [show runCycles 0 loopCpu = some loopCpu from rfl] at hr
        cases hr
        rfl
      · rw [show runCycles 1 loopCpu =
          some {loopCpu with del_timer := 4, sound_timer := 4, tick := 1}
          from rfl] at hr
        cases hr
        rfl
      · rw [show runCycles 2 loopCpu = some loopEnd from rfl] at hr
        cases hr
        rfl)

end Chip8
